import Mathlib

/-!
Verification of the SPC (Western-Electric / Nelson style) control-chart
analyzer `controlSensitizingGraph` from `control.py`.

The source reads a CSV column, validates it, computes z-scores, runs a
single left-to-right scan applying eight pattern rules, and returns a
structured result together with a rendered chart.  CSV ingestion and
chart rasterization are external collaborators (thin pandas/matplotlib
wrappers); the core modelled here receives the already-cleaned ordered
sequence of real numbers, exactly as the specification's boundary
contract states.

Modelling decisions, faithful to the source:
* Python floats are modelled as real numbers (`ℝ`); the rule evaluator is
  stated generically over a `LinearOrderedField` since every rule is a
  pure order/arithmetic test.
* `pd.isna(std)` can never hold in the real-number model (the variance of
  a list of reals is a well-defined nonnegative real), so the source
  guard `std == 0 or pd.isna(std)` is modelled as `sampleStd data = 0`.
* Each rule firing appends one message; the source's f-string messages
  carry the rule number and the implicated inclusive index span, which is
  what the `Msg` record retains.
* The source builds `zScores` incrementally inside the loop
  (`zScores.append(z)` followed by reads of `zScores[a : i + 1]`, which
  only ever look at indices `≤ i`).  `scanLoop` reproduces that loop
  verbatim (carrying the growing list), and `scanLoop_eq` proves it equal
  to the evaluator `evaluate` run on the fully built z-score list.
-/

set_option maxHeartbeats 1000000

namespace ControlChart

/-- A violation message: the rule number together with the inclusive index
span `[lo, hi]` that the rule implicates (the data the source interpolates
into its f-string messages). -/
structure Msg where
  rule : ℕ
  lo : ℕ
  hi : ℕ
deriving DecidableEq

/-- The inclusive index span flagged by one message. -/
def Msg.span (m : Msg) : Finset ℕ := Finset.Icc m.lo m.hi

/-- Validation failures of the analysis (source lines 21-27). -/
inductive AnalysisError where
  | insufficientData
  | degenerateVariance
deriving DecidableEq

/-- The structured success payload of the analysis (source lines 134-142;
the base64 chart payload is external rendering and carries no analysis
information). -/
structure Analysis where
  n : ℕ
  mean : ℝ
  std : ℝ
  problem_points : List ℕ
  messages : List Msg

section Rules

variable {α : Type*} [LinearOrderedRing α]

/-- Python slice `l[a : b]` (clamped at the list's length). -/
def slice (l : List α) (a b : ℕ) : List α := (l.take b).drop a

/-- Rule 1 test (source line 38): `abs(z) >= 3` for the current z-score. -/
def rule1Hit (z : α) : Bool := decide (3 ≤ |z|)

/-- Rule 2 test (source lines 44-47): of the window `zScores[i-2 : i+1]`,
at least 2 values are `>= 2` or at least 2 values are `<= -2`. -/
def rule2Hit (zScores : List α) (i : ℕ) : Bool :=
  let window := slice zScores (i - 2) (i + 1)
  let pos := window.countP (fun v => decide (2 ≤ v))
  let neg := window.countP (fun v => decide (v ≤ -2))
  decide (2 ≤ pos) || decide (2 ≤ neg)

/-- Rule 3 test (source lines 53-56): of the window `zScores[i-4 : i+1]`,
at least 4 values are `>= 1` or at least 4 values are `<= -1`. -/
def rule3Hit (zScores : List α) (i : ℕ) : Bool :=
  let window := slice zScores (i - 4) (i + 1)
  let pos := window.countP (fun v => decide (1 ≤ v))
  let neg := window.countP (fun v => decide (v ≤ -1))
  decide (4 ≤ pos) || decide (4 ≤ neg)

/-- Rule 4 test (source lines 62-65): all of `zScores[i-7 : i+1]` strictly
positive, or all strictly negative. -/
def rule4Hit (zScores : List α) (i : ℕ) : Bool :=
  let window := slice zScores (i - 7) (i + 1)
  window.all (fun v => decide (0 < v)) || window.all (fun v => decide (v < 0))

/-- Rule 5 test (source lines 71-74): the six raw values `data[i-5 : i+1]`
are strictly increasing at every consecutive step, or strictly decreasing
at every consecutive step. -/
def rule5Hit (data : List α) (i : ℕ) : Bool :=
  let w := slice data (i - 5) (i + 1)
  let inc := (List.range 5).all (fun j => decide (w.getD j 0 < w.getD (j + 1) 0))
  let dec := (List.range 5).all (fun j => decide (w.getD (j + 1) 0 < w.getD j 0))
  inc || dec

/-- Rule 6 test (source lines 80-81): all of `zScores[i-14 : i+1]` satisfy
`abs(v) < 1`. -/
def rule6Hit (zScores : List α) (i : ℕ) : Bool :=
  (slice zScores (i - 14) (i + 1)).all (fun v => decide (|v| < 1))

/-- Rule 7 test (source lines 87-91): the 13 consecutive differences of
`data[i-13 : i+1]` are all nonzero and each adjacent pair of differences
multiplies to a negative number (alternating signs).  The source nests the
alternation check inside the nonzero check; firing requires both, which is
the conjunction below. -/
def rule7Hit (data : List α) (i : ℕ) : Bool :=
  let w := slice data (i - 13) (i + 1)
  let diffs := (List.range 13).map (fun j => w.getD (j + 1) 0 - w.getD j 0)
  diffs.all (fun d => decide (d ≠ 0)) &&
    (List.range 12).all (fun j => decide (diffs.getD j 0 * diffs.getD (j + 1) 0 < 0))

/-- Rule 8 test (source lines 97-98): all of `zScores[i-7 : i+1]` satisfy
`abs(v) >= 1`, and the window has at least one strictly positive and at
least one strictly negative value. -/
def rule8Hit (zScores : List α) (i : ℕ) : Bool :=
  let window := slice zScores (i - 7) (i + 1)
  window.all (fun v => decide (1 ≤ |v|)) &&
    window.any (fun v => decide (0 < v)) && window.any (fun v => decide (v < 0))

/-- One rule firing: when `cond` holds, union the span into the flagged
set and append the message (the source's `problemPoints.add`/`update` and
`messages.append`); otherwise leave the accumulator unchanged. -/
def fire (cond : Prop) [Decidable cond] (m : Msg) (s : Finset ℕ × List Msg) :
    Finset ℕ × List Msg :=
  if cond then (s.1 ∪ Finset.Icc m.lo m.hi, s.2 ++ [m]) else s

/-- The body of the scan loop at index `i`: apply the eight rules in
source order.  Each source guard `if i >= c:` combines with the rule test
into the conjunction passed to `fire` (for Rule 1 the source adds the
single index `i`, i.e. the span `[i, i]`). -/
def step (data zScores : List α) (i : ℕ) (s : Finset ℕ × List Msg) :
    Finset ℕ × List Msg :=
  let s1 := fire (rule1Hit (zScores.getD i 0) = true) ⟨1, i, i⟩ s
  let s2 := fire (2 ≤ i ∧ rule2Hit zScores i = true) ⟨2, i - 2, i⟩ s1
  let s3 := fire (4 ≤ i ∧ rule3Hit zScores i = true) ⟨3, i - 4, i⟩ s2
  let s4 := fire (7 ≤ i ∧ rule4Hit zScores i = true) ⟨4, i - 7, i⟩ s3
  let s5 := fire (5 ≤ i ∧ rule5Hit data i = true) ⟨5, i - 5, i⟩ s4
  let s6 := fire (14 ≤ i ∧ rule6Hit zScores i = true) ⟨6, i - 14, i⟩ s5
  let s7 := fire (13 ≤ i ∧ rule7Hit data i = true) ⟨7, i - 13, i⟩ s6
  fire (7 ≤ i ∧ rule8Hit zScores i = true) ⟨8, i - 7, i⟩ s7

end Rules

section Scan

variable {α : Type*} [LinearOrderedField α]

/-- The z-score sequence: `z[i] = (x[i] - mean) / std` (source line 34). -/
def zScoresOf (mean std : α) (data : List α) : List α :=
  data.map (fun x => (x - mean) / std)

/-- The source's scan loop (source lines 29-100): iterate `i` over the
data, append the current z-score to the growing `zScores` list, then apply
the eight rules to the state.  Returns the final
`(zScores, (problemPoints, messages))`. -/
def scanLoop (data : List α) (mean std : α) :
    List α × Finset ℕ × List Msg :=
  (List.range data.length).foldl
    (fun s i =>
      let zScores := s.1 ++ [(data.getD i 0 - mean) / std]
      (zScores, step data zScores i s.2))
    ([], ∅, [])

/-- The rule evaluator run against a fully built z-score list. -/
def evaluate (data zScores : List α) : Finset ℕ × List Msg :=
  (List.range data.length).foldl (fun s i => step data zScores i s) (∅, [])

end Scan

/-- Arithmetic mean of the data (source line 24). -/
noncomputable def listMean (data : List ℝ) : ℝ := data.sum / data.length

/-- Bessel-corrected sample variance: `Σ (x - mean)^2 / (n - 1)`
(`data.std(ddof=1)` squared, source line 25). -/
noncomputable def sampleVariance (data : List ℝ) : ℝ :=
  (data.map (fun x => (x - listMean data) ^ 2)).sum / ((data.length : ℝ) - 1)

/-- Bessel-corrected sample standard deviation (source line 25). -/
noncomputable def sampleStd (data : List ℝ) : ℝ :=
  Real.sqrt (sampleVariance data)

/-- The analyzer core (source lines 9-142, minus the external CSV and
plotting collaborators): validate the cleaned sequence, compute z-scores,
run the rule scan, and package the structured result.  `pd.isna(std)`
cannot hold in the real-number model, so the degenerate guard is
`sampleStd data = 0`. -/
noncomputable def controlSensitizingGraph (data : List ℝ) :
    Except AnalysisError Analysis :=
  if data.length < 2 then .error .insufficientData
  else if sampleStd data = 0 then .error .degenerateVariance
  else
    .ok ⟨data.length, listMean data, sampleStd data,
      (scanLoop data (listMean data) (sampleStd data)).2.1.sort (· ≤ ·),
      (scanLoop data (listMean data) (sampleStd data)).2.2⟩

section DerivedDefinitions

variable {α : Type*} [LinearOrderedRing α]

/-- The list of messages the eight rules emit at index `i` (in source
order, Rule 1 first). -/
def msgsAt (data zScores : List α) (i : ℕ) : List Msg :=
  (if rule1Hit (zScores.getD i 0) = true then [⟨1, i, i⟩] else []) ++
  (if 2 ≤ i ∧ rule2Hit zScores i = true then [⟨2, i - 2, i⟩] else []) ++
  (if 4 ≤ i ∧ rule3Hit zScores i = true then [⟨3, i - 4, i⟩] else []) ++
  (if 7 ≤ i ∧ rule4Hit zScores i = true then [⟨4, i - 7, i⟩] else []) ++
  (if 5 ≤ i ∧ rule5Hit data i = true then [⟨5, i - 5, i⟩] else []) ++
  (if 14 ≤ i ∧ rule6Hit zScores i = true then [⟨6, i - 14, i⟩] else []) ++
  (if 13 ≤ i ∧ rule7Hit data i = true then [⟨7, i - 13, i⟩] else []) ++
  (if 7 ≤ i ∧ rule8Hit zScores i = true then [⟨8, i - 7, i⟩] else [])

/-- Union of the spans of a list of messages. -/
def spanUnion (ms : List Msg) : Finset ℕ := ms.foldr (fun m t => m.span ∪ t) ∅

/-- Messages produced by scanning the indices in `l`, in order. -/
def msgsUpTo (data zs : List α) (l : List ℕ) : List Msg :=
  l.foldr (fun i acc => msgsAt data zs i ++ acc) []

/-- The full ordered message list of a run. -/
def runMessages (data zs : List α) : List Msg :=
  msgsUpTo data zs (List.range data.length)

/-- The z-score of the run at index `j`. -/
noncomputable def zAt (data : List ℝ) (j : ℕ) : ℝ :=
  (zScoresOf (listMean data) (sampleStd data) data).getD j 0

/-- The raw value at index `j` (0 when out of range, which never occurs in
the uses below). -/
def xAt (data : List ℝ) (j : ℕ) : ℝ := data.getD j 0

/-- The `k`-th consecutive raw difference `x[k+1] - x[k]`. -/
def dAt (data : List ℝ) (k : ℕ) : ℝ := xAt data (k + 1) - xAt data k

/-- Window size of each of the eight rules, per the specification's rule
table. -/
def windowSize : ℕ → ℕ
  | 1 => 1
  | 2 => 3
  | 3 => 5
  | 4 => 8
  | 5 => 6
  | 6 => 15
  | 7 => 14
  | 8 => 8
  | _ => 0

/-- Whether rule `r` is evaluated at index `i`, read off the source's
guards (lines 38, 43, 52, 61, 70, 79, 86, 96): Rule 1 at every index,
Rule 2 once `i ≥ 2`, Rule 3 once `i ≥ 4`, Rule 4 once `i ≥ 7`, Rule 5 once
`i ≥ 5`, Rule 6 once `i ≥ 14`, Rule 7 once `i ≥ 13`, Rule 8 once `i ≥ 7`. -/
def ruleEvaluated (r i : ℕ) : Bool :=
  match r with
  | 1 => true
  | 2 => decide (2 ≤ i)
  | 3 => decide (4 ≤ i)
  | 4 => decide (7 ≤ i)
  | 5 => decide (5 ≤ i)
  | 6 => decide (14 ≤ i)
  | 7 => decide (13 ≤ i)
  | 8 => decide (7 ≤ i)
  | _ => false

/-- Concrete dataset `[0, 2, 4]`: mean 2, sample std 2, z-scores
`[-1, 0, 1]`, no rule fires. -/
def data024 : List ℝ := [0, 2, 4]

/-- Concrete dataset `[-8, -5, -1, 1, 5, 8]`: mean 0, sample std 6,
strictly increasing, so Rule 5 fires at index 5 and nothing else fires. -/
def dataMono : List ℝ := [-8, -5, -1, 1, 5, 8]

/-- Concrete dataset `[1, -1, 3, -3, 4, -4, 10, -10]`: eight values, mean
0, sample std 6, no rule fires. -/
def dataZig : List ℝ := [1, -1, 3, -3, 4, -4, 10, -10]

/-- Concrete dataset `[0, 0, 0, 3]`: mean 3/4, sample std 3/2 (the largest
possible z-score for four points is `(n-1)/√n ≤ 3/2`), so no rule fires. -/
def data0003 : List ℝ := [0, 0, 0, 3]

/-- Concrete dataset `[1, -1, 4, -4, 6, -6, 7, -7, 8, -8, 9, -9, 13, -13]`:
fourteen values, mean 0, sample std 8, alternating deltas; exactly Rule 7
fires, at index 13, flagging the whole range. -/
def dataAlt : List ℝ := [1, -1, 4, -4, 6, -6, 7, -7, 8, -8, 9, -9, 13, -13]

/-- The rational twin of `dataAlt`. -/
def qAlt : List ℚ := [1, -1, 4, -4, 6, -6, 7, -7, 8, -8, 9, -9, 13, -13]

/-- The rational z-scores of `dataAlt` (each value divided by 8). -/
def qzsAlt : List ℚ :=
  [Rat.divInt 1 8, Rat.divInt (-1) 8, Rat.divInt 4 8, Rat.divInt (-4) 8,
   Rat.divInt 6 8, Rat.divInt (-6) 8, Rat.divInt 7 8, Rat.divInt (-7) 8,
   Rat.divInt 8 8, Rat.divInt (-8) 8, Rat.divInt 9 8, Rat.divInt (-9) 8,
   Rat.divInt 13 8, Rat.divInt (-13) 8]

end DerivedDefinitions

section StructuralLemmas

variable {α : Type*} [LinearOrderedField α]

lemma take_getD {β : Type*} (l : List β) (n m : ℕ) (d : β) (h : m < n) :
    (l.take n).getD m d = l.getD m d := by
  induction l generalizing n m with
  | nil => simp
  | cons a l ih =>
    cases n with
    | zero => omega
    | succ n =>
      cases m with
      | zero => simp
      | succ m => simpa using ih n m (by omega)

lemma slice_take {β : Type*} (l : List β) (a i : ℕ) :
    slice (l.take (i + 1)) a (i + 1) = slice l a (i + 1) := by
  simp [slice, List.take_take]

lemma rule2Hit_take (zs : List α) (i : ℕ) :
    rule2Hit (zs.take (i + 1)) i = rule2Hit zs i := by
  simp [rule2Hit, slice_take]

lemma rule3Hit_take (zs : List α) (i : ℕ) :
    rule3Hit (zs.take (i + 1)) i = rule3Hit zs i := by
  simp [rule3Hit, slice_take]

lemma rule4Hit_take (zs : List α) (i : ℕ) :
    rule4Hit (zs.take (i + 1)) i = rule4Hit zs i := by
  simp [rule4Hit, slice_take]

lemma rule6Hit_take (zs : List α) (i : ℕ) :
    rule6Hit (zs.take (i + 1)) i = rule6Hit zs i := by
  simp [rule6Hit, slice_take]

lemma rule8Hit_take (zs : List α) (i : ℕ) :
    rule8Hit (zs.take (i + 1)) i = rule8Hit zs i := by
  simp [rule8Hit, slice_take]

/-- The rules applied at index `i` read the z-score list only at indices
`≤ i`: the scan step cannot see past the prefix built so far. -/
lemma step_take (data zs : List α) (i : ℕ) (s : Finset ℕ × List Msg) :
    step data (zs.take (i + 1)) i s = step data zs i s := by
  simp only [step, rule2Hit_take, rule3Hit_take, rule4Hit_take, rule6Hit_take,
    rule8Hit_take, take_getD zs (i + 1) i 0 (Nat.lt_succ_self i)]

lemma spanUnion_nil : spanUnion ([] : List Msg) = ∅ := rfl

lemma spanUnion_cons (m : Msg) (ms : List Msg) :
    spanUnion (m :: ms) = m.span ∪ spanUnion ms := rfl

lemma spanUnion_singleton (m : Msg) : spanUnion [m] = m.span := by
  simp [spanUnion, Msg.span]

lemma spanUnion_append (l1 l2 : List Msg) :
    spanUnion (l1 ++ l2) = spanUnion l1 ∪ spanUnion l2 := by
  induction l1 with
  | nil => simp [spanUnion_nil, spanUnion]
  | cons m l ih => simp [spanUnion_cons, ih, Finset.union_assoc]

lemma mem_spanUnion {j : ℕ} {ms : List Msg} :
    j ∈ spanUnion ms ↔ ∃ m ∈ ms, j ∈ m.span := by
  induction ms with
  | nil => simp [spanUnion_nil]
  | cons m l ih => simp [spanUnion_cons, ih]

lemma fire_eq (c : Prop) [Decidable c] (m : Msg) (s : Finset ℕ × List Msg) :
    fire c m s = (s.1 ∪ (if c then m.span else ∅), s.2 ++ (if c then [m] else [])) := by
  unfold fire
  split <;> simp [Msg.span]

/-- The scan step adds exactly the spans and messages of the rules that
fire at `i`. -/
lemma step_eq (data zs : List α) (i : ℕ) (s : Finset ℕ × List Msg) :
    step data zs i s = (s.1 ∪ spanUnion (msgsAt data zs i), s.2 ++ msgsAt data zs i) := by
  simp only [step, fire_eq, msgsAt, spanUnion_append, apply_ite spanUnion,
    spanUnion_singleton, spanUnion_nil, List.append_assoc, Finset.union_assoc,
    Finset.union_empty, Finset.empty_union, List.append_nil]

lemma msgsUpTo_nil (data zs : List α) : msgsUpTo data zs [] = [] := rfl

lemma msgsUpTo_cons (data zs : List α) (i : ℕ) (l : List ℕ) :
    msgsUpTo data zs (i :: l) = msgsAt data zs i ++ msgsUpTo data zs l := rfl

lemma mem_msgsUpTo {data zs : List α} {l : List ℕ} {m : Msg} :
    m ∈ msgsUpTo data zs l ↔ ∃ i ∈ l, m ∈ msgsAt data zs i := by
  induction l with
  | nil => simp [msgsUpTo_nil]
  | cons i l ih => simp [msgsUpTo_cons, ih]

lemma foldl_step_eq (data zs : List α) (l : List ℕ) (s : Finset ℕ × List Msg) :
    l.foldl (fun t i => step data zs i t) s
      = (s.1 ∪ spanUnion (msgsUpTo data zs l), s.2 ++ msgsUpTo data zs l) := by
  induction l generalizing s with
  | nil => simp [msgsUpTo_nil, spanUnion_nil]
  | cons i l ih =>
    rw [List.foldl_cons, ih, step_eq, msgsUpTo_cons, spanUnion_append]
    simp [Finset.union_assoc, List.append_assoc]

lemma mem_runMessages {data zs : List α} {m : Msg} :
    m ∈ runMessages data zs ↔ ∃ i, i < data.length ∧ m ∈ msgsAt data zs i := by
  simp [runMessages, mem_msgsUpTo, List.mem_range]

/-- The evaluator returns the union of the fired spans together with the
fired messages in order. -/
lemma evaluate_eq (data zs : List α) :
    evaluate data zs = (spanUnion (runMessages data zs), runMessages data zs) := by
  simp [evaluate, runMessages, foldl_step_eq]

/-- The incrementally built z-score list of the source loop agrees with
the fully built one: the loop equals the evaluator run on
`zScoresOf mean std data`. -/
lemma scanLoop_aux (data : List α) (mean std : α) (n : ℕ) (hn : n ≤ data.length) :
    (List.range n).foldl
      (fun s i =>
        let zScores := s.1 ++ [(data.getD i 0 - mean) / std]
        (zScores, step data zScores i s.2))
      ([], ∅, [])
      = ((data.take n).map (fun x => (x - mean) / std),
         (List.range n).foldl (fun s i => step data (zScoresOf mean std data) i s) (∅, [])) := by
  induction n with
  | zero => simp
  | succ n ih =>
    have hlt : n < data.length := by omega
    rw [List.range_succ, List.foldl_append, List.foldl_append, ih (by omega)]
    simp only [List.foldl_cons, List.foldl_nil]
    have htake : data.take (n + 1) = data.take n ++ [data.getD n 0] := by
      rw [List.take_succ, List.getElem?_eq_getElem hlt, List.getD_eq_getElem data 0 hlt]
      rfl
    have hx : (data.take n).map (fun x => (x - mean) / std) ++ [(data.getD n 0 - mean) / std]
        = (data.take (n + 1)).map (fun x => (x - mean) / std) := by
      rw [htake]
      simp
    rw [hx]
    have hstep : step data ((data.take (n + 1)).map (fun x => (x - mean) / std)) n
        = step data (zScoresOf mean std data) n := by
      funext s
      have hmt : (data.take (n + 1)).map (fun x => (x - mean) / std)
          = (data.map (fun x => (x - mean) / std)).take (n + 1) := by
        simp
      rw [hmt, step_take]
      rfl
    rw [hstep]

lemma scanLoop_eq (data : List α) (mean std : α) :
    scanLoop data mean std
      = (zScoresOf mean std data, evaluate data (zScoresOf mean std data)) := by
  have h := scanLoop_aux data mean std data.length le_rfl
  simpa [scanLoop, evaluate, zScoresOf] using h

lemma mem_if_singleton {c : Prop} [Decidable c] {m x : Msg} :
    m ∈ (if c then [x] else []) ↔ c ∧ m = x := by
  split <;> simp [*]

/-- Membership characterization for the messages emitted at index `i`. -/
lemma mem_msgsAt {data zScores : List α} {i : ℕ} {m : Msg} :
    m ∈ msgsAt data zScores i ↔
      (rule1Hit (zScores.getD i 0) = true ∧ m = ⟨1, i, i⟩) ∨
      ((2 ≤ i ∧ rule2Hit zScores i = true) ∧ m = ⟨2, i - 2, i⟩) ∨
      ((4 ≤ i ∧ rule3Hit zScores i = true) ∧ m = ⟨3, i - 4, i⟩) ∨
      ((7 ≤ i ∧ rule4Hit zScores i = true) ∧ m = ⟨4, i - 7, i⟩) ∨
      ((5 ≤ i ∧ rule5Hit data i = true) ∧ m = ⟨5, i - 5, i⟩) ∨
      ((14 ≤ i ∧ rule6Hit zScores i = true) ∧ m = ⟨6, i - 14, i⟩) ∨
      ((13 ≤ i ∧ rule7Hit data i = true) ∧ m = ⟨7, i - 13, i⟩) ∨
      ((7 ≤ i ∧ rule8Hit zScores i = true) ∧ m = ⟨8, i - 7, i⟩) := by
  simp only [msgsAt, List.mem_append, mem_if_singleton, or_assoc]

/-- Every message emitted at index `i` implicates a span ending exactly at
`i`, with a rule number between 1 and 8. -/
lemma msgsAt_shape {data zScores : List α} {i : ℕ} {m : Msg}
    (h : m ∈ msgsAt data zScores i) :
    m.hi = i ∧ m.lo ≤ i ∧ 1 ≤ m.rule ∧ m.rule ≤ 8 := by
  rcases mem_msgsAt.1 h with h | h | h | h | h | h | h | h <;>
    obtain ⟨-, rfl⟩ := h <;> simp

end StructuralLemmas

section WindowLemmas

variable {α : Type*} [LinearOrderedField α]

/-- A trailing window `l[i-c : i+1]` is the list of the `c + 1` entries at
indices `i - c, …, i`. -/
lemma slice_window (l : List α) (c i : ℕ) (hc : c ≤ i) (hi : i < l.length) :
    slice l (i - c) (i + 1) = (List.range (c + 1)).map (fun j => l.getD (i - c + j) 0) := by
  have hlen : (slice l (i - c) (i + 1)).length = c + 1 := by
    simp [slice]
    omega
  apply List.ext_getElem
  · simp [hlen]
  · intro j h1 h2
    have hj : j < c + 1 := by simpa [hlen] using h1
    have hidx : i - c + j < l.length := by omega
    simp only [slice, List.getElem_drop, List.getElem_take, List.getElem_map,
      List.getElem_range]
    rw [List.getD_eq_getElem l 0 hidx]

lemma getD_slice (l : List α) (c i j : ℕ) (hc : c ≤ i) (hi : i < l.length) (hj : j ≤ c) :
    (slice l (i - c) (i + 1)).getD j 0 = l.getD (i - c + j) 0 := by
  rw [slice_window l c i hc hi]
  have hj2 : j < ((List.range (c + 1)).map (fun j => l.getD (i - c + j) 0)).length := by
    simp; omega
  rw [List.getD_eq_getElem _ 0 hj2]
  simp

lemma all_slice_iff (l : List α) (c i : ℕ) (p : α → Bool) (hc : c ≤ i) (hi : i < l.length) :
    ((slice l (i - c) (i + 1)).all p = true ↔
      ∀ k ∈ Finset.Icc (i - c) i, p (l.getD k 0) = true) := by
  rw [slice_window l c i hc hi]
  simp only [List.all_eq_true, List.mem_map, List.mem_range, Finset.mem_Icc,
    forall_exists_index, and_imp]
  constructor
  · intro h k hk1 hk2
    exact h (l.getD k 0) (k - (i - c)) (by omega)
      (by rw [show i - c + (k - (i - c)) = k by omega])
  · intro h x j hj hx
    subst hx
    exact h (i - c + j) (by omega) (by omega)

lemma any_slice_iff (l : List α) (c i : ℕ) (p : α → Bool) (hc : c ≤ i) (hi : i < l.length) :
    ((slice l (i - c) (i + 1)).any p = true ↔
      ∃ k ∈ Finset.Icc (i - c) i, p (l.getD k 0) = true) := by
  rw [slice_window l c i hc hi]
  simp only [List.any_eq_true, List.mem_map, List.mem_range, Finset.mem_Icc]
  constructor
  · rintro ⟨x, ⟨j, hj, rfl⟩, hx⟩
    exact ⟨i - c + j, ⟨by omega, by omega⟩, hx⟩
  · rintro ⟨k, ⟨hk1, hk2⟩, hk⟩
    exact ⟨_, ⟨k - (i - c), by omega, rfl⟩, by rwa [show i - c + (k - (i - c)) = k by omega]⟩

lemma countP_range (n : ℕ) (q : ℕ → Bool) :
    (List.range n).countP q = ((Finset.range n).filter (fun j => q j = true)).card := by
  induction n with
  | zero => simp
  | succ n ih =>
    rw [List.range_succ, List.countP_append, ih, Finset.range_succ, Finset.filter_insert]
    by_cases hq : q n = true
    · rw [if_pos hq, Finset.card_insert_of_not_mem (by simp)]
      simp [List.countP_cons, hq]
    · rw [if_neg hq]
      simp [List.countP_cons, hq]

lemma countP_slice (l : List α) (c i : ℕ) (p : α → Bool) (hc : c ≤ i) (hi : i < l.length) :
    (slice l (i - c) (i + 1)).countP p
      = ((Finset.Icc (i - c) i).filter (fun k => p (l.getD k 0) = true)).card := by
  rw [slice_window l c i hc hi, List.countP_map, countP_range]
  have himg : Finset.Icc (i - c) i = (Finset.range (c + 1)).image (fun j => i - c + j) := by
    ext k
    simp only [Finset.mem_Icc, Finset.mem_image, Finset.mem_range]
    constructor
    · rintro ⟨h1, h2⟩
      exact ⟨k - (i - c), by omega, by omega⟩
    · rintro ⟨j, hj, rfl⟩
      omega
  rw [himg, Finset.filter_image, Finset.card_image_of_injOn]
  · rfl
  · intro a _ b _ hab
    have hab2 : i - c + a = i - c + b := hab
    omega

end WindowLemmas

section PipelineLemmas

lemma length_zScoresOf {α : Type*} [LinearOrderedField α] (mean std : α) (data : List α) :
    (zScoresOf mean std data).length = data.length := by
  simp [zScoresOf]

/-- Inversion of the analyzer: a success result determines the validation
facts and all the payload fields. -/
lemma run_ok_iff {data : List ℝ} {a : Analysis} :
    controlSensitizingGraph data = .ok a ↔
      2 ≤ data.length ∧ sampleStd data ≠ 0 ∧
        a = ⟨data.length, listMean data, sampleStd data,
          (spanUnion (runMessages data
            (zScoresOf (listMean data) (sampleStd data) data))).sort (· ≤ ·),
          runMessages data (zScoresOf (listMean data) (sampleStd data) data)⟩ := by
  unfold controlSensitizingGraph
  simp only [scanLoop_eq, evaluate_eq]
  split_ifs with h1 h2
  · constructor
    · intro h
      exact absurd h (by simp)
    · rintro ⟨hl, -, -⟩
      omega
  · constructor
    · intro h
      exact absurd h (by simp)
    · rintro ⟨-, hs, -⟩
      exact absurd h2 hs
  · constructor
    · intro h
      exact ⟨by omega, h2, (Except.ok.inj h).symm⟩
    · rintro ⟨-, -, rfl⟩
      rfl

lemma run_ok_fields {data : List ℝ} {a : Analysis}
    (h : controlSensitizingGraph data = .ok a) :
    a.n = data.length ∧ a.mean = listMean data ∧ a.std = sampleStd data ∧
      a.messages = runMessages data (zScoresOf (listMean data) (sampleStd data) data) ∧
      a.problem_points = (spanUnion a.messages).sort (· ≤ ·) ∧
      2 ≤ data.length ∧ sampleStd data ≠ 0 := by
  obtain ⟨h1, h2, rfl⟩ := run_ok_iff.1 h
  exact ⟨rfl, rfl, rfl, rfl, rfl, h1, h2⟩

/-- A list of at least two all-equal values has sample standard
deviation 0 (the numerator of the variance vanishes termwise). -/
lemma sampleStd_allEqual {data : List ℝ} (h2 : 2 ≤ data.length)
    (h : ∀ x ∈ data, ∀ y ∈ data, x = y) : sampleStd data = 0 := by
  rcases data with - | ⟨c, rest⟩
  · simp at h2
  · have hc : ∀ x ∈ c :: rest, x = c := fun x hx => h x hx c (List.mem_cons_self c rest)
    have hsum : (c :: rest).sum = (c :: rest).length • c :=
      List.sum_eq_card_nsmul _ c hc
    have hlen : ((c :: rest).length : ℝ) ≠ 0 := by
      simp only [List.length_cons]
      positivity
    have hmean : listMean (c :: rest) = c := by
      rw [listMean, hsum, nsmul_eq_mul, mul_comm, mul_div_assoc, div_self hlen, mul_one]
    have hzero : ((c :: rest).map (fun x => (x - listMean (c :: rest)) ^ 2)).sum = 0 := by
      apply List.sum_eq_zero
      intro y hy
      obtain ⟨x, hx, rfl⟩ := List.mem_map.1 hy
      rw [hc x hx, hmean]
      ring
    rw [sampleStd, sampleVariance, hzero, zero_div, Real.sqrt_zero]


end PipelineLemmas

section CastTransport

/-!
The rule evaluator is generic in the ordered field.  Casting a rational
data/z-score pair into `ℝ` changes no rule outcome, which lets concrete
runs whose mean and standard deviation are rational be computed by
`decide` over `ℚ` and transported to the real-valued analyzer.
-/

lemma slice_map {β γ : Type*} (f : β → γ) (l : List β) (a b : ℕ) :
    slice (l.map f) a b = (slice l a b).map f := by
  simp [slice]

lemma getD_map_cast (l : List ℚ) (j : ℕ) :
    (l.map (fun x : ℚ => (x : ℝ))).getD j 0 = ((l.getD j 0 : ℚ) : ℝ) := by
  rw [show (0 : ℝ) = ((0 : ℚ) : ℝ) by norm_num]
  exact List.getD_map l 0 (fun x : ℚ => (x : ℝ))

lemma countP_map_cast (l : List ℚ) (p : ℝ → Bool) (q : ℚ → Bool)
    (h : ∀ x : ℚ, p (x : ℝ) = q x) :
    (l.map (fun x : ℚ => (x : ℝ))).countP p = l.countP q := by
  induction l with
  | nil => rfl
  | cons a t ih => simp only [List.map_cons, List.countP_cons, h a, ih]

lemma all_map_cast (l : List ℚ) (p : ℝ → Bool) (q : ℚ → Bool)
    (h : ∀ x : ℚ, p (x : ℝ) = q x) :
    (l.map (fun x : ℚ => (x : ℝ))).all p = l.all q := by
  induction l with
  | nil => rfl
  | cons a t ih => simp only [List.map_cons, List.all_cons, h a, ih]

lemma any_map_cast (l : List ℚ) (p : ℝ → Bool) (q : ℚ → Bool)
    (h : ∀ x : ℚ, p (x : ℝ) = q x) :
    (l.map (fun x : ℚ => (x : ℝ))).any p = l.any q := by
  induction l with
  | nil => rfl
  | cons a t ih => simp only [List.map_cons, List.any_cons, h a, ih]

lemma rule1Hit_cast (z : ℚ) : rule1Hit ((z : ℝ)) = rule1Hit z := by
  simp only [rule1Hit]
  rw [decide_eq_decide]
  exact_mod_cast Iff.rfl

lemma rule2Hit_cast (zs : List ℚ) (i : ℕ) :
    rule2Hit (zs.map (fun x : ℚ => (x : ℝ))) i = rule2Hit zs i := by
  simp only [rule2Hit, slice_map]
  rw [countP_map_cast _ _ (fun v : ℚ => decide (2 ≤ v))
        (fun x => by rw [decide_eq_decide]; exact_mod_cast Iff.rfl),
      countP_map_cast _ _ (fun v : ℚ => decide (v ≤ -2))
        (fun x => by rw [decide_eq_decide]; exact_mod_cast Iff.rfl)]

lemma rule3Hit_cast (zs : List ℚ) (i : ℕ) :
    rule3Hit (zs.map (fun x : ℚ => (x : ℝ))) i = rule3Hit zs i := by
  simp only [rule3Hit, slice_map]
  rw [countP_map_cast _ _ (fun v : ℚ => decide (1 ≤ v))
        (fun x => by rw [decide_eq_decide]; exact_mod_cast Iff.rfl),
      countP_map_cast _ _ (fun v : ℚ => decide (v ≤ -1))
        (fun x => by rw [decide_eq_decide]; exact_mod_cast Iff.rfl)]

lemma rule4Hit_cast (zs : List ℚ) (i : ℕ) :
    rule4Hit (zs.map (fun x : ℚ => (x : ℝ))) i = rule4Hit zs i := by
  simp only [rule4Hit, slice_map]
  rw [all_map_cast _ _ (fun v : ℚ => decide (0 < v))
        (fun x => by rw [decide_eq_decide]; exact_mod_cast Iff.rfl),
      all_map_cast _ _ (fun v : ℚ => decide (v < 0))
        (fun x => by rw [decide_eq_decide]; exact_mod_cast Iff.rfl)]

lemma rule5Hit_cast (data : List ℚ) (i : ℕ) :
    rule5Hit (data.map (fun x : ℚ => (x : ℝ))) i = rule5Hit data i := by
  simp only [rule5Hit, slice_map, getD_map_cast]
  congr 1
  · exact congrArg (fun f => List.all (List.range 5) f)
      (funext fun j => by rw [decide_eq_decide]; exact_mod_cast Iff.rfl)
  · exact congrArg (fun f => List.all (List.range 5) f)
      (funext fun j => by rw [decide_eq_decide]; exact_mod_cast Iff.rfl)

lemma rule6Hit_cast (zs : List ℚ) (i : ℕ) :
    rule6Hit (zs.map (fun x : ℚ => (x : ℝ))) i = rule6Hit zs i := by
  simp only [rule6Hit, slice_map]
  rw [all_map_cast _ _ (fun v : ℚ => decide (|v| < 1))
        (fun x => by rw [decide_eq_decide]; exact_mod_cast Iff.rfl)]

lemma rule7Hit_cast (data : List ℚ) (i : ℕ) :
    rule7Hit (data.map (fun x : ℚ => (x : ℝ))) i = rule7Hit data i := by
  simp only [rule7Hit, slice_map, getD_map_cast]
  have hd : (List.range 13).map (fun j =>
        (((slice data (i - 13) (i + 1)).getD (j + 1) 0 : ℚ) : ℝ)
          - (((slice data (i - 13) (i + 1)).getD j 0 : ℚ) : ℝ))
      = ((List.range 13).map (fun j =>
          (slice data (i - 13) (i + 1)).getD (j + 1) 0
            - (slice data (i - 13) (i + 1)).getD j 0)).map (fun x : ℚ => (x : ℝ)) := by
    rw [List.map_map]
    exact congrArg (fun f => List.map f (List.range 13))
      (funext fun j => by simp only [Function.comp_apply]; push_cast; rfl)
  rw [hd]
  rw [all_map_cast _ _ (fun d : ℚ => decide (d ≠ 0))
        (fun x => by rw [decide_eq_decide]; exact_mod_cast Iff.rfl)]
  simp only [getD_map_cast]
  congr 1
  exact congrArg (fun f => List.all (List.range 12) f)
    (funext fun j => by rw [decide_eq_decide]; exact_mod_cast Iff.rfl)

lemma rule8Hit_cast (zs : List ℚ) (i : ℕ) :
    rule8Hit (zs.map (fun x : ℚ => (x : ℝ))) i = rule8Hit zs i := by
  simp only [rule8Hit, slice_map]
  rw [all_map_cast _ _ (fun v : ℚ => decide (1 ≤ |v|))
        (fun x => by rw [decide_eq_decide]; exact_mod_cast Iff.rfl),
      any_map_cast _ _ (fun v : ℚ => decide (0 < v))
        (fun x => by rw [decide_eq_decide]; exact_mod_cast Iff.rfl),
      any_map_cast _ _ (fun v : ℚ => decide (v < 0))
        (fun x => by rw [decide_eq_decide]; exact_mod_cast Iff.rfl)]

lemma msgsAt_cast (data zs : List ℚ) (i : ℕ) :
    msgsAt (data.map (fun x : ℚ => (x : ℝ))) (zs.map (fun x : ℚ => (x : ℝ))) i
      = msgsAt data zs i := by
  simp only [msgsAt, getD_map_cast, rule1Hit_cast, rule2Hit_cast, rule3Hit_cast,
    rule4Hit_cast, rule5Hit_cast, rule6Hit_cast, rule7Hit_cast, rule8Hit_cast]

lemma msgsUpTo_cast (data zs : List ℚ) (l : List ℕ) :
    msgsUpTo (data.map (fun x : ℚ => (x : ℝ))) (zs.map (fun x : ℚ => (x : ℝ))) l
      = msgsUpTo data zs l := by
  induction l with
  | nil => rfl
  | cons i t ih => rw [msgsUpTo_cons, msgsUpTo_cons, msgsAt_cast, ih]

lemma runMessages_cast (data zs : List ℚ) :
    runMessages (data.map (fun x : ℚ => (x : ℝ))) (zs.map (fun x : ℚ => (x : ℝ)))
      = runMessages data zs := by
  rw [runMessages, runMessages, List.length_map, msgsUpTo_cast]

/-!
A second transport, `ℤ → ℚ`, for the two raw-data rules: rational
subtraction and multiplication do not reduce by `decide` (they normalize
through `Nat.gcd`), while integer arithmetic does, and the raw data of the
concrete runs is integral.
-/

lemma getD_map_intCast (l : List ℤ) (j : ℕ) :
    (l.map (fun x : ℤ => (x : ℚ))).getD j 0 = ((l.getD j 0 : ℤ) : ℚ) := by
  rw [show (0 : ℚ) = ((0 : ℤ) : ℚ) by norm_num]
  exact List.getD_map l 0 (fun x : ℤ => (x : ℚ))

lemma all_map_intCast (l : List ℤ) (p : ℚ → Bool) (q : ℤ → Bool)
    (h : ∀ x : ℤ, p (x : ℚ) = q x) :
    (l.map (fun x : ℤ => (x : ℚ))).all p = l.all q := by
  induction l with
  | nil => rfl
  | cons a t ih => simp only [List.map_cons, List.all_cons, h a, ih]

lemma rule5Hit_intCast (data : List ℤ) (i : ℕ) :
    rule5Hit (data.map (fun x : ℤ => (x : ℚ))) i = rule5Hit data i := by
  simp only [rule5Hit, slice_map, getD_map_intCast]
  congr 1
  · exact congrArg (fun f => List.all (List.range 5) f)
      (funext fun j => by rw [decide_eq_decide]; exact_mod_cast Iff.rfl)
  · exact congrArg (fun f => List.all (List.range 5) f)
      (funext fun j => by rw [decide_eq_decide]; exact_mod_cast Iff.rfl)

lemma rule7Hit_intCast (data : List ℤ) (i : ℕ) :
    rule7Hit (data.map (fun x : ℤ => (x : ℚ))) i = rule7Hit data i := by
  simp only [rule7Hit, slice_map, getD_map_intCast]
  have hd : (List.range 13).map (fun j =>
        (((slice data (i - 13) (i + 1)).getD (j + 1) 0 : ℤ) : ℚ)
          - (((slice data (i - 13) (i + 1)).getD j 0 : ℤ) : ℚ))
      = ((List.range 13).map (fun j =>
          (slice data (i - 13) (i + 1)).getD (j + 1) 0
            - (slice data (i - 13) (i + 1)).getD j 0)).map (fun x : ℤ => (x : ℚ)) := by
    rw [List.map_map]
    exact congrArg (fun f => List.map f (List.range 13))
      (funext fun j => by simp only [Function.comp_apply]; push_cast; rfl)
  rw [hd]
  rw [all_map_intCast _ _ (fun d : ℤ => decide (d ≠ 0))
        (fun x => by rw [decide_eq_decide]; exact_mod_cast Iff.rfl)]
  simp only [getD_map_intCast]
  congr 1
  exact congrArg (fun f => List.all (List.range 12) f)
    (funext fun j => by rw [decide_eq_decide]; exact_mod_cast Iff.rfl)

lemma msgsUpTo_append {α : Type*} [LinearOrderedField α] (data zs : List α)
    (l1 l2 : List ℕ) :
    msgsUpTo data zs (l1 ++ l2) = msgsUpTo data zs l1 ++ msgsUpTo data zs l2 := by
  induction l1 with
  | nil => rfl
  | cons i t ih => rw [List.cons_append, msgsUpTo_cons, msgsUpTo_cons, ih, List.append_assoc]

end CastTransport

section ConcreteRuns

lemma mean_024 : listMean data024 = 2 := by
  norm_num [listMean, data024]

lemma var_024 : sampleVariance data024 = 4 := by
  rw [sampleVariance, mean_024]
  norm_num [data024]

lemma std_024 : sampleStd data024 = 2 := by
  rw [sampleStd, var_024, show (4 : ℝ) = 2 ^ 2 by norm_num,
    Real.sqrt_sq (by norm_num : (0 : ℝ) ≤ 2)]

lemma zs_024 : zScoresOf (listMean data024) (sampleStd data024) data024
    = ([-1, 0, 1] : List ℚ).map (fun x : ℚ => (x : ℝ)) := by
  rw [mean_024, std_024]
  norm_num [zScoresOf, data024]

lemma dataCast_024 : data024 = ([0, 2, 4] : List ℚ).map (fun x : ℚ => (x : ℝ)) := by
  norm_num [data024]

lemma msgs_024 :
    runMessages data024 (zScoresOf (listMean data024) (sampleStd data024) data024) = [] := by
  rw [zs_024, dataCast_024, runMessages_cast]
  decide

lemma run_024 : controlSensitizingGraph data024 = .ok ⟨3, 2, 2, [], []⟩ := by
  rw [run_ok_iff]
  refine ⟨by norm_num [data024], by rw [std_024]; norm_num, ?_⟩
  rw [msgs_024, mean_024, std_024]
  simp [data024, spanUnion_nil]

lemma mean_mono : listMean dataMono = 0 := by
  norm_num [listMean, dataMono]

lemma var_mono : sampleVariance dataMono = 36 := by
  rw [sampleVariance, mean_mono]
  norm_num [dataMono]

lemma std_mono : sampleStd dataMono = 6 := by
  rw [sampleStd, var_mono, show (36 : ℝ) = 6 ^ 2 by norm_num,
    Real.sqrt_sq (by norm_num : (0 : ℝ) ≤ 6)]

lemma zs_mono : zScoresOf (listMean dataMono) (sampleStd dataMono) dataMono
    = ([Rat.divInt (-8) 6, Rat.divInt (-5) 6, Rat.divInt (-1) 6, Rat.divInt 1 6,
        Rat.divInt 5 6, Rat.divInt 8 6] : List ℚ).map (fun x : ℚ => (x : ℝ)) := by
  rw [mean_mono, std_mono]
  norm_num [zScoresOf, dataMono, Rat.divInt_eq_div]

lemma dataCast_mono :
    dataMono = ([-8, -5, -1, 1, 5, 8] : List ℚ).map (fun x : ℚ => (x : ℝ)) := by
  norm_num [dataMono]

lemma msgs_mono :
    runMessages dataMono (zScoresOf (listMean dataMono) (sampleStd dataMono) dataMono)
      = [⟨5, 0, 5⟩] := by
  rw [zs_mono, dataCast_mono, runMessages_cast]
  decide

lemma run_mono : controlSensitizingGraph dataMono
    = .ok ⟨6, 0, 6, [0, 1, 2, 3, 4, 5], [⟨5, 0, 5⟩]⟩ := by
  rw [run_ok_iff]
  refine ⟨by norm_num [dataMono], by rw [std_mono]; norm_num, ?_⟩
  have hlen : dataMono.length = 6 := by norm_num [dataMono]
  have hspan : spanUnion [(⟨5, 0, 5⟩ : Msg)] = Finset.Icc 0 5 := by
    simp [spanUnion_cons, spanUnion_nil, Msg.span]
  rw [msgs_mono, mean_mono, std_mono, hlen, hspan,
    show Finset.Icc 0 5 = Finset.range 6 by decide, Finset.sort_range,
    show List.range 6 = [0, 1, 2, 3, 4, 5] by decide]

lemma mean_zig : listMean dataZig = 0 := by
  norm_num [listMean, dataZig]

lemma var_zig : sampleVariance dataZig = 36 := by
  rw [sampleVariance, mean_zig]
  norm_num [dataZig]

lemma std_zig : sampleStd dataZig = 6 := by
  rw [sampleStd, var_zig, show (36 : ℝ) = 6 ^ 2 by norm_num,
    Real.sqrt_sq (by norm_num : (0 : ℝ) ≤ 6)]

lemma zs_zig : zScoresOf (listMean dataZig) (sampleStd dataZig) dataZig
    = ([Rat.divInt 1 6, Rat.divInt (-1) 6, Rat.divInt 3 6, Rat.divInt (-3) 6,
        Rat.divInt 4 6, Rat.divInt (-4) 6, Rat.divInt 10 6, Rat.divInt (-10) 6] : List ℚ).map
        (fun x : ℚ => (x : ℝ)) := by
  rw [mean_zig, std_zig]
  norm_num [zScoresOf, dataZig, Rat.divInt_eq_div]

lemma dataCast_zig :
    dataZig = ([1, -1, 3, -3, 4, -4, 10, -10] : List ℚ).map (fun x : ℚ => (x : ℝ)) := by
  norm_num [dataZig]

lemma msgs_zig :
    runMessages dataZig (zScoresOf (listMean dataZig) (sampleStd dataZig) dataZig)
      = [] := by
  rw [zs_zig, dataCast_zig, runMessages_cast]
  decide

lemma run_zig : controlSensitizingGraph dataZig = .ok ⟨8, 0, 6, [], []⟩ := by
  rw [run_ok_iff]
  refine ⟨by norm_num [dataZig], by rw [std_zig]; norm_num, ?_⟩
  rw [msgs_zig, mean_zig, std_zig]
  simp [dataZig, spanUnion_nil]

lemma mean_0003 : listMean data0003 = 3 / 4 := by
  norm_num [listMean, data0003]

lemma var_0003 : sampleVariance data0003 = 9 / 4 := by
  rw [sampleVariance, mean_0003]
  norm_num [data0003]

lemma std_0003 : sampleStd data0003 = 3 / 2 := by
  rw [sampleStd, var_0003, show (9 / 4 : ℝ) = (3 / 2) ^ 2 by norm_num,
    Real.sqrt_sq (by norm_num : (0 : ℝ) ≤ 3 / 2)]

lemma zs_0003 : zScoresOf (listMean data0003) (sampleStd data0003) data0003
    = ([Rat.divInt (-1) 2, Rat.divInt (-1) 2, Rat.divInt (-1) 2, Rat.divInt 3 2] :
        List ℚ).map (fun x : ℚ => (x : ℝ)) := by
  rw [mean_0003, std_0003]
  norm_num [zScoresOf, data0003, Rat.divInt_eq_div]

lemma dataCast_0003 :
    data0003 = ([0, 0, 0, 3] : List ℚ).map (fun x : ℚ => (x : ℝ)) := by
  norm_num [data0003]

lemma msgs_0003 :
    runMessages data0003 (zScoresOf (listMean data0003) (sampleStd data0003) data0003)
      = [] := by
  rw [zs_0003, dataCast_0003, runMessages_cast]
  decide

lemma run_0003 : controlSensitizingGraph data0003 = .ok ⟨4, 3 / 4, 3 / 2, [], []⟩ := by
  rw [run_ok_iff]
  refine ⟨by norm_num [data0003], by rw [std_0003]; norm_num, ?_⟩
  rw [msgs_0003, mean_0003, std_0003]
  simp [data0003, spanUnion_nil]

lemma mean_alt : listMean dataAlt = 0 := by
  norm_num [listMean, dataAlt]

lemma var_alt : sampleVariance dataAlt = 64 := by
  rw [sampleVariance, mean_alt]
  norm_num [dataAlt]

lemma std_alt : sampleStd dataAlt = 8 := by
  rw [sampleStd, var_alt, show (64 : ℝ) = 8 ^ 2 by norm_num,
    Real.sqrt_sq (by norm_num : (0 : ℝ) ≤ 8)]

lemma zs_alt : zScoresOf (listMean dataAlt) (sampleStd dataAlt) dataAlt
    = qzsAlt.map (fun x : ℚ => (x : ℝ)) := by
  rw [mean_alt, std_alt]
  norm_num [zScoresOf, dataAlt, qzsAlt, Rat.divInt_eq_div]

lemma dataCast_alt : dataAlt = qAlt.map (fun x : ℚ => (x : ℝ)) := by
  norm_num [dataAlt, qAlt]

lemma rule7_alt : rule7Hit qAlt 13 = true := by
  rw [show qAlt = ([1, -1, 4, -4, 6, -6, 7, -7, 8, -8, 9, -9, 13, -13] : List ℤ).map
      (fun x : ℤ => (x : ℚ)) by norm_num [qAlt], rule7Hit_intCast]
  decide

lemma msgsAt13_alt : msgsAt qAlt qzsAlt 13 = [⟨7, 0, 13⟩] := by
  simp only [msgsAt]
  rw [if_neg (by decide), if_neg (by decide), if_neg (by decide), if_neg (by decide),
    if_neg (by decide), if_neg (by decide), if_pos ⟨by norm_num, rule7_alt⟩,
    if_neg (by decide)]
  rfl

lemma msgs_alt :
    runMessages dataAlt (zScoresOf (listMean dataAlt) (sampleStd dataAlt) dataAlt)
      = [⟨7, 0, 13⟩] := by
  rw [zs_alt, dataCast_alt, runMessages_cast]
  rw [runMessages, show qAlt.length = 14 from rfl,
    show (14 : ℕ) = 13 + 1 from rfl, List.range_succ, msgsUpTo_append]
  rw [show msgsUpTo qAlt qzsAlt (List.range 13) = [] from by decide]
  rw [msgsUpTo_cons, msgsUpTo_nil, msgsAt13_alt]
  rfl

lemma run_alt : controlSensitizingGraph dataAlt
    = .ok ⟨14, 0, 8, [0, 1, 2, 3, 4, 5, 6, 7, 8, 9, 10, 11, 12, 13], [⟨7, 0, 13⟩]⟩ := by
  rw [run_ok_iff]
  refine ⟨by norm_num [dataAlt], by rw [std_alt]; norm_num, ?_⟩
  have hlen : dataAlt.length = 14 := by norm_num [dataAlt]
  have hspan : spanUnion [(⟨7, 0, 13⟩ : Msg)] = Finset.Icc 0 13 := by
    simp [spanUnion_cons, spanUnion_nil, Msg.span]
  rw [msgs_alt, mean_alt, std_alt, hlen, hspan,
    show Finset.Icc 0 13 = Finset.range 14 by decide, Finset.sort_range,
    show List.range 14 = [0, 1, 2, 3, 4, 5, 6, 7, 8, 9, 10, 11, 12, 13] by decide]

end ConcreteRuns

section RuleCharacterization

variable {α : Type*} [LinearOrderedField α]

/-- A message is in the run exactly when it is emitted at the index its
span ends at (spans always end at the emitting index). -/
lemma msg_mem_run_iff {data zs : List α} {m : Msg} :
    m ∈ runMessages data zs ↔ m.hi < data.length ∧ m ∈ msgsAt data zs m.hi := by
  rw [mem_runMessages]
  constructor
  · rintro ⟨i, hi, hm⟩
    have hhi : m.hi = i := (msgsAt_shape hm).1
    rw [hhi]
    exact ⟨hi, hm⟩
  · rintro ⟨h1, h2⟩
    exact ⟨m.hi, h1, h2⟩

lemma rule2_msgsAt_iff {data zs : List α} {i : ℕ} :
    ((⟨2, i - 2, i⟩ : Msg) ∈ msgsAt data zs i) ↔ 2 ≤ i ∧ rule2Hit zs i = true := by
  simp [mem_msgsAt, Msg.mk.injEq]

lemma rule5_msgsAt_iff {data zs : List α} {i : ℕ} :
    ((⟨5, i - 5, i⟩ : Msg) ∈ msgsAt data zs i) ↔ 5 ≤ i ∧ rule5Hit data i = true := by
  simp [mem_msgsAt, Msg.mk.injEq]

lemma rule7_msgsAt_iff {data zs : List α} {i : ℕ} :
    ((⟨7, i - 13, i⟩ : Msg) ∈ msgsAt data zs i) ↔ 13 ≤ i ∧ rule7Hit data i = true := by
  simp [mem_msgsAt, Msg.mk.injEq]

lemma rule8_msgsAt_iff {data zs : List α} {i : ℕ} :
    ((⟨8, i - 7, i⟩ : Msg) ∈ msgsAt data zs i) ↔ 7 ≤ i ∧ rule8Hit zs i = true := by
  simp [mem_msgsAt, Msg.mk.injEq]

lemma forall_window_iff (c i : ℕ) (hc : c ≤ i) (P : ℕ → Prop) :
    (∀ j, j < c → P (i - c + j)) ↔ ∀ k, i - c ≤ k → k < i → P k := by
  constructor
  · intro h k hk1 hk2
    have := h (k - (i - c)) (by omega)
    rwa [show i - c + (k - (i - c)) = k by omega] at this
  · intro h j hj
    exact h (i - c + j) (by omega) (by omega)

/-- Rule 2 in terms of tallies over the window indices: at least 2 of the
3 z-scores are `≥ 2`, or at least 2 are `≤ -2`, the two tallies counted
independently. -/
lemma rule2Hit_iff (zs : List α) (i : ℕ) (h2 : 2 ≤ i) (hi : i < zs.length) :
    rule2Hit zs i = true ↔
      2 ≤ ((Finset.Icc (i - 2) i).filter (fun j => 2 ≤ zs.getD j 0)).card ∨
      2 ≤ ((Finset.Icc (i - 2) i).filter (fun j => zs.getD j 0 ≤ -2)).card := by
  simp only [rule2Hit, Bool.or_eq_true, decide_eq_true_eq]
  rw [countP_slice zs 2 i (fun v => decide (2 ≤ v)) h2 hi,
    countP_slice zs 2 i (fun v => decide (v ≤ -2)) h2 hi]
  simp [decide_eq_true_eq]

/-- Rule 8 in terms of the window indices: every z-score in the window has
absolute value `≥ 1`, and the window straddles both sides of zero. -/
lemma rule8Hit_iff (zs : List α) (i : ℕ) (h7 : 7 ≤ i) (hi : i < zs.length) :
    rule8Hit zs i = true ↔
      (∀ k ∈ Finset.Icc (i - 7) i, 1 ≤ |zs.getD k 0|) ∧
      (∃ k ∈ Finset.Icc (i - 7) i, 0 < zs.getD k 0) ∧
      (∃ k ∈ Finset.Icc (i - 7) i, zs.getD k 0 < 0) := by
  simp only [rule8Hit, Bool.and_eq_true]
  rw [all_slice_iff zs 7 i (fun v => decide (1 ≤ |v|)) h7 hi,
    any_slice_iff zs 7 i (fun v => decide (0 < v)) h7 hi,
    any_slice_iff zs 7 i (fun v => decide (v < 0)) h7 hi]
  simp [decide_eq_true_eq, and_assoc]

/-- Rule 5 in terms of the raw data: the six values ending at `i` are
strictly increasing step by step, or strictly decreasing step by step. -/
lemma rule5Hit_iff (data : List α) (i : ℕ) (h5 : 5 ≤ i) (hi : i < data.length) :
    rule5Hit data i = true ↔
      (∀ k, i - 5 ≤ k → k < i → data.getD k 0 < data.getD (k + 1) 0) ∨
      (∀ k, i - 5 ≤ k → k < i → data.getD (k + 1) 0 < data.getD k 0) := by
  have hw : ∀ j, j ≤ 5 → (slice data (i - 5) (i + 1)).getD j 0 = data.getD (i - 5 + j) 0 :=
    fun j hj => getD_slice data 5 i j h5 hi hj
  have h1 : ∀ (R : α → α → Prop),
      (∀ j, j < 5 → R ((slice data (i - 5) (i + 1)).getD j 0)
        ((slice data (i - 5) (i + 1)).getD (j + 1) 0))
      ↔ ∀ k, i - 5 ≤ k → k < i → R (data.getD k 0) (data.getD (k + 1) 0) := by
    intro R
    rw [← forall_window_iff 5 i h5 (fun k => R (data.getD k 0) (data.getD (k + 1) 0))]
    apply forall_congr'
    intro j
    apply imp_congr_right
    intro hj
    rw [hw j (by omega), hw (j + 1) (by omega),
      show i - 5 + (j + 1) = i - 5 + j + 1 by omega]
  simp only [rule5Hit, Bool.or_eq_true, List.all_eq_true, List.mem_range,
    decide_eq_true_eq]
  rw [h1 (fun a b => a < b), h1 (fun a b => b < a)]

lemma getD_range_map (f : ℕ → α) (n j : ℕ) (hj : j < n) :
    ((List.range n).map f).getD j 0 = f j := by
  have hlen : j < ((List.range n).map f).length := by simpa using hj
  rw [List.getD_eq_getElem _ 0 hlen]
  simp

/-- Rule 7 in terms of the raw data: the 13 consecutive differences ending
at `i` are all nonzero, and each adjacent pair of differences has negative
product. -/
lemma rule7Hit_iff (data : List α) (i : ℕ) (h13 : 13 ≤ i) (hi : i < data.length) :
    rule7Hit data i = true ↔
      (∀ k, i - 13 ≤ k → k < i → data.getD (k + 1) 0 - data.getD k 0 ≠ 0) ∧
      (∀ k, i - 13 ≤ k → k + 1 < i →
        (data.getD (k + 1) 0 - data.getD k 0) * (data.getD (k + 2) 0 - data.getD (k + 1) 0) < 0) := by
  have hw : ∀ j, j ≤ 13 → (slice data (i - 13) (i + 1)).getD j 0 = data.getD (i - 13 + j) 0 :=
    fun j hj => getD_slice data 13 i j h13 hi hj
  have hdf : ∀ j, j < 13 →
      ((List.range 13).map (fun j => (slice data (i - 13) (i + 1)).getD (j + 1) 0
        - (slice data (i - 13) (i + 1)).getD j 0)).getD j 0
      = data.getD (i - 13 + j + 1) 0 - data.getD (i - 13 + j) 0 := by
    intro j hj
    rw [getD_range_map _ 13 j hj, hw j (by omega), hw (j + 1) (by omega),
      show i - 13 + (j + 1) = i - 13 + j + 1 by omega]
  simp only [rule7Hit, Bool.and_eq_true, List.all_eq_true, List.mem_map,
    List.mem_range, decide_eq_true_eq]
  constructor
  · rintro ⟨hall, halt⟩
    constructor
    · intro k hk1 hk2
      have := hall (data.getD (k + 1) 0 - data.getD k 0)
        ⟨k - (i - 13), by omega, ?_⟩
      · exact this
      · rw [hw (k - (i - 13)) (by omega), hw (k - (i - 13) + 1) (by omega),
          show i - 13 + (k - (i - 13)) = k by omega,
          show i - 13 + (k - (i - 13) + 1) = k + 1 by omega]
    · intro k hk1 hk2
      have := halt (k - (i - 13)) (by omega)
      rw [hdf (k - (i - 13)) (by omega), hdf (k - (i - 13) + 1) (by omega),
        show i - 13 + (k - (i - 13)) = k by omega,
        show i - 13 + (k - (i - 13) + 1) = k + 1 by omega,
        show k + 1 + 1 = k + 2 by omega] at this
      exact this
  · rintro ⟨hall, halt⟩
    constructor
    · rintro d ⟨j, hj, rfl⟩
      rw [hw j (by omega), hw (j + 1) (by omega),
        show i - 13 + (j + 1) = i - 13 + j + 1 by omega]
      exact hall (i - 13 + j) (by omega) (by omega)
    · intro j hj
      rw [hdf j (by omega), hdf (j + 1) (by omega),
        show i - 13 + (j + 1) = i - 13 + j + 1 by omega,
        show i - 13 + j + 1 + 1 = i - 13 + j + 2 by omega]
      exact halt (i - 13 + j) (by omega) (by omega)

end RuleCharacterization

section Claims

lemma spanUnion_run_lt {α : Type*} [LinearOrderedField α] {data zs : List α} {j : ℕ}
    (hj : j ∈ spanUnion (runMessages data zs)) : j < data.length := by
  obtain ⟨m, hm, hjm⟩ := mem_spanUnion.1 hj
  obtain ⟨i, hi, hmi⟩ := mem_runMessages.1 hm
  have hs := msgsAt_shape hmi
  have hle : j ≤ m.hi := (Finset.mem_Icc.1 hjm).2
  omega

/-- C8: for every input sequence with fewer than 2 values the analysis
returns the `InsufficientData` failure (and, the scan never being reached,
produces no messages and no flagged indices). -/
theorem C8_insufficient_data (data : List ℝ) (h : data.length < 2) :
    controlSensitizingGraph data = .error .insufficientData := by
  unfold controlSensitizingGraph
  rw [if_pos h]

theorem C8_witness :
    controlSensitizingGraph ([] : List ℝ) = .error .insufficientData :=
  C8_insufficient_data [] (by norm_num)

/-- C9: for every sequence of length ≥ 2 the analysis fails with
`DegenerateVariance` exactly when the Bessel-corrected sample standard
deviation is 0 (over the real-number model the standard deviation is
always a finite real, so the source's `pd.isna` disjunct is vacuous); in
particular every all-equal sequence of length ≥ 2 fails this way, the
scan never being reached. -/
theorem C9_degenerate_variance (data : List ℝ) (h2 : 2 ≤ data.length) :
    (controlSensitizingGraph data = .error .degenerateVariance ↔ sampleStd data = 0) ∧
    ((∀ x ∈ data, ∀ y ∈ data, x = y) →
      controlSensitizingGraph data = .error .degenerateVariance) := by
  constructor
  · unfold controlSensitizingGraph
    split_ifs with h1 hs
    · exact absurd h1 (by omega)
    · simp [hs]
    · simp [hs]
  · intro hall
    have h0 := sampleStd_allEqual h2 hall
    unfold controlSensitizingGraph
    rw [if_neg (by omega), if_pos h0]

theorem C9_witness :
    controlSensitizingGraph ([1, 1] : List ℝ) = .error .degenerateVariance := by
  refine (C9_degenerate_variance [1, 1] (by norm_num)).2 ?_
  intro x hx y hy
  simp at hx hy
  rw [hx, hy]

/-- C1: on every successful run the flagged indices all lie in
`[0, n-1]`, the flagged set is exactly the union of the spans of all
fired-rule messages, and it is reported sorted ascending with no
duplicates. -/
theorem C1_flagged_set (data : List ℝ) (a : Analysis)
    (h : controlSensitizingGraph data = .ok a) :
    (∀ j ∈ a.problem_points, j < a.n) ∧
    a.problem_points.toFinset = spanUnion a.messages ∧
    a.problem_points.Sorted (· ≤ ·) ∧ a.problem_points.Nodup := by
  obtain ⟨hn, hmean, hstd, hmsgs, hpts, h2, hs⟩ := run_ok_fields h
  refine ⟨?_, ?_, ?_, ?_⟩
  · intro j hj
    rw [hpts, Finset.mem_sort] at hj
    rw [hn]
    rw [hmsgs] at hj
    exact spanUnion_run_lt hj
  · rw [hpts, Finset.sort_toFinset]
  · rw [hpts]
    exact Finset.sort_sorted _ _
  · rw [hpts]
    exact Finset.sort_nodup _ _

theorem C1_witness :
    (∀ j ∈ (Analysis.mk 3 2 2 [] []).problem_points, j < (Analysis.mk 3 2 2 [] []).n) ∧
    (Analysis.mk 3 2 2 [] []).problem_points.toFinset
      = spanUnion (Analysis.mk 3 2 2 [] []).messages ∧
    (Analysis.mk 3 2 2 [] []).problem_points.Sorted (· ≤ ·) ∧
    (Analysis.mk 3 2 2 [] []).problem_points.Nodup :=
  C1_flagged_set data024 ⟨3, 2, 2, [], []⟩ run_024

/-- C10: on every successful run the message list is empty exactly when
the flagged index list is empty: every firing contributes one message and
a nonempty span, and every flagged index comes from some firing. -/
theorem C10_messages_iff_flagged (data : List ℝ) (a : Analysis)
    (h : controlSensitizingGraph data = .ok a) :
    a.messages = [] ↔ a.problem_points = [] := by
  obtain ⟨hn, hmean, hstd, hmsgs, hpts, h2, hs⟩ := run_ok_fields h
  rw [hpts]
  constructor
  · intro hme
    rw [hme]
    simp [spanUnion_nil]
  · intro hpe
    rcases hme : a.messages with - | ⟨m, rest⟩
    · rfl
    · exfalso
      have hmem : m ∈ runMessages data (zScoresOf (listMean data) (sampleStd data) data) := by
        rw [← hmsgs, hme]
        exact List.mem_cons_self m rest
      obtain ⟨i, hi, hmi⟩ := mem_runMessages.1 hmem
      have hsh := msgsAt_shape hmi
      have hspan : m.hi ∈ spanUnion a.messages := by
        refine mem_spanUnion.2 ⟨m, ?_, ?_⟩
        · rw [hme]
          exact List.mem_cons_self m rest
        · exact Finset.mem_Icc.2 ⟨by omega, le_rfl⟩
      have := Finset.mem_sort (α := ℕ) (· ≤ ·) |>.2 hspan
      rw [hpe] at this
      simp at this

theorem C10_witness :
    (Analysis.mk 6 0 6 [0, 1, 2, 3, 4, 5] [⟨5, 0, 5⟩]).messages = [] ↔
      (Analysis.mk 6 0 6 [0, 1, 2, 3, 4, 5] [⟨5, 0, 5⟩]).problem_points = [] :=
  C10_messages_iff_flagged dataMono ⟨6, 0, 6, [0, 1, 2, 3, 4, 5], [⟨5, 0, 5⟩]⟩ run_mono

/-- C2: each rule is evaluated at index `i` exactly when `i ≥ w - 1` for
its window size `w` (Rule 1 everywhere, Rule 2 at `i ≥ 2`, Rule 3 at
`i ≥ 4`, Rule 4 and Rule 8 at `i ≥ 7`, Rule 5 at `i ≥ 5`, Rule 6 at
`i ≥ 14`, Rule 7 at `i ≥ 13`), and on every successful run a rule never
fires at an index where it is not evaluated — short history is skipped,
never an error. -/
theorem C2_applicability :
    (∀ r, 1 ≤ r → r ≤ 8 → ∀ i : ℕ, (ruleEvaluated r i = true ↔ windowSize r - 1 ≤ i)) ∧
    (∀ (data : List ℝ) (a : Analysis), controlSensitizingGraph data = .ok a →
      ∀ m ∈ a.messages, ruleEvaluated m.rule m.hi = true ∧ windowSize m.rule - 1 ≤ m.hi) := by
  constructor
  · intro r h1 h8 i
    interval_cases r <;> simp [ruleEvaluated, windowSize]
  · intro data a h m hm
    obtain ⟨-, -, -, hmsgs, -, -, -⟩ := run_ok_fields h
    rw [hmsgs] at hm
    obtain ⟨i, hi, hmi⟩ := mem_runMessages.1 hm
    rcases mem_msgsAt.1 hmi with ⟨-, rfl⟩ | ⟨⟨hg, -⟩, rfl⟩ | ⟨⟨hg, -⟩, rfl⟩ |
      ⟨⟨hg, -⟩, rfl⟩ | ⟨⟨hg, -⟩, rfl⟩ | ⟨⟨hg, -⟩, rfl⟩ | ⟨⟨hg, -⟩, rfl⟩ | ⟨⟨hg, -⟩, rfl⟩
    · simp [ruleEvaluated, windowSize]
    all_goals simp [ruleEvaluated, windowSize, hg]

theorem C2_witness :
    (ruleEvaluated 2 1 = true ↔ windowSize 2 - 1 ≤ 1) ∧
    (ruleEvaluated 5 5 = true ∧ windowSize 5 - 1 ≤ 5) :=
  ⟨C2_applicability.1 2 (by norm_num) (by norm_num) 1,
   C2_applicability.2 dataMono ⟨6, 0, 6, [0, 1, 2, 3, 4, 5], [⟨5, 0, 5⟩]⟩ run_mono
     ⟨5, 0, 5⟩ (by simp)⟩

/-- C3: on every successful run and every index `i ≥ 2` in range, Rule 2
fires at `i` exactly when at least 2 of the 3 z-scores `z[i-2..i]` are
`≥ 2` or at least 2 of them are `≤ -2`, the two tallies counted
independently over the same window (so the window `[+2, -2, +2]` fires on
its positive tally alone), and a firing flags the whole span `[i-2, i]`. -/
theorem C3_rule2 :
    (∀ (data : List ℝ) (a : Analysis), controlSensitizingGraph data = .ok a →
      ∀ i : ℕ, 2 ≤ i → i < a.n →
        (((⟨2, i - 2, i⟩ : Msg) ∈ a.messages) ↔
          (2 ≤ ((Finset.Icc (i - 2) i).filter (fun j => 2 ≤ zAt data j)).card ∨
           2 ≤ ((Finset.Icc (i - 2) i).filter (fun j => zAt data j ≤ -2)).card)) ∧
        (((⟨2, i - 2, i⟩ : Msg) ∈ a.messages) →
          ∀ j ∈ Finset.Icc (i - 2) i, j ∈ a.problem_points)) ∧
    rule2Hit ([2, -2, 2] : List ℝ) 2 = true := by
  constructor
  · intro data a h i h2 hin
    obtain ⟨hn, -, -, hmsgs, hpts, -, -⟩ := run_ok_fields h
    rw [hn] at hin
    have hzlen : i < (zScoresOf (listMean data) (sampleStd data) data).length := by
      rw [length_zScoresOf]
      exact hin
    constructor
    · have hmem : ((⟨2, i - 2, i⟩ : Msg) ∈ a.messages)
          ↔ rule2Hit (zScoresOf (listMean data) (sampleStd data) data) i = true := by
        rw [hmsgs, msg_mem_run_iff]
        constructor
        · rintro ⟨-, hmm⟩
          exact (rule2_msgsAt_iff.1 hmm).2
        · intro hr
          exact ⟨hin, rule2_msgsAt_iff.2 ⟨h2, hr⟩⟩
      rw [hmem, rule2Hit_iff _ i h2 hzlen]
      exact Iff.rfl
    · intro hmem j hj
      rw [hpts, Finset.mem_sort]
      exact mem_spanUnion.2 ⟨⟨2, i - 2, i⟩, hmem, hj⟩
  · rw [show ([2, -2, 2] : List ℝ) = ([2, -2, 2] : List ℚ).map (fun x : ℚ => (x : ℝ))
        by norm_num, rule2Hit_cast]
    decide

theorem C3_witness :
    (((⟨2, 2 - 2, 2⟩ : Msg) ∈ (Analysis.mk 3 2 2 [] []).messages) ↔
      (2 ≤ ((Finset.Icc (2 - 2) 2).filter (fun j => 2 ≤ zAt data024 j)).card ∨
       2 ≤ ((Finset.Icc (2 - 2) 2).filter (fun j => zAt data024 j ≤ -2)).card)) ∧
    (((⟨2, 2 - 2, 2⟩ : Msg) ∈ (Analysis.mk 3 2 2 [] []).messages) →
      ∀ j ∈ Finset.Icc (2 - 2) 2, j ∈ (Analysis.mk 3 2 2 [] []).problem_points) :=
  C3_rule2.1 data024 ⟨3, 2, 2, [], []⟩ run_024 2 (by norm_num) (by norm_num)

/-- C4: on every successful run and every index `i ≥ 7` in range, Rule 8
fires at `i` exactly when all eight z-scores `z[i-7..i]` have absolute
value `≥ 1` and the window holds both a strictly positive and a strictly
negative z-score; consequently a window containing a z-score equal to 0
never fires Rule 8. -/
theorem C4_rule8 :
    ∀ (data : List ℝ) (a : Analysis), controlSensitizingGraph data = .ok a →
      ∀ i : ℕ, 7 ≤ i → i < a.n →
        (((⟨8, i - 7, i⟩ : Msg) ∈ a.messages) ↔
          (∀ k ∈ Finset.Icc (i - 7) i, 1 ≤ |zAt data k|) ∧
          (∃ k ∈ Finset.Icc (i - 7) i, 0 < zAt data k) ∧
          (∃ k ∈ Finset.Icc (i - 7) i, zAt data k < 0)) ∧
        ((∃ k ∈ Finset.Icc (i - 7) i, zAt data k = 0) →
          (⟨8, i - 7, i⟩ : Msg) ∉ a.messages) := by
  intro data a h i h7 hin
  obtain ⟨hn, -, -, hmsgs, -, -, -⟩ := run_ok_fields h
  rw [hn] at hin
  have hzlen : i < (zScoresOf (listMean data) (sampleStd data) data).length := by
    rw [length_zScoresOf]
    exact hin
  have hiff : ((⟨8, i - 7, i⟩ : Msg) ∈ a.messages) ↔
      (∀ k ∈ Finset.Icc (i - 7) i, 1 ≤ |zAt data k|) ∧
      (∃ k ∈ Finset.Icc (i - 7) i, 0 < zAt data k) ∧
      (∃ k ∈ Finset.Icc (i - 7) i, zAt data k < 0) := by
    have hmem : ((⟨8, i - 7, i⟩ : Msg) ∈ a.messages)
        ↔ rule8Hit (zScoresOf (listMean data) (sampleStd data) data) i = true := by
      rw [hmsgs, msg_mem_run_iff]
      constructor
      · rintro ⟨-, hmm⟩
        exact (rule8_msgsAt_iff.1 hmm).2
      · intro hr
        exact ⟨hin, rule8_msgsAt_iff.2 ⟨h7, hr⟩⟩
    rw [hmem, rule8Hit_iff _ i h7 hzlen]
    exact Iff.rfl
  refine ⟨hiff, ?_⟩
  rintro ⟨k, hk, hk0⟩ hmem2
  have h1 := (hiff.1 hmem2).1 k hk
  rw [hk0, abs_zero] at h1
  norm_num at h1

theorem C4_witness :
    (((⟨8, 7 - 7, 7⟩ : Msg) ∈ (Analysis.mk 8 0 6 [] []).messages) ↔
      (∀ k ∈ Finset.Icc (7 - 7) 7, 1 ≤ |zAt dataZig k|) ∧
      (∃ k ∈ Finset.Icc (7 - 7) 7, 0 < zAt dataZig k) ∧
      (∃ k ∈ Finset.Icc (7 - 7) 7, zAt dataZig k < 0)) ∧
    ((∃ k ∈ Finset.Icc (7 - 7) 7, zAt dataZig k = 0) →
      (⟨8, 7 - 7, 7⟩ : Msg) ∉ (Analysis.mk 8 0 6 [] []).messages) :=
  C4_rule8 dataZig ⟨8, 0, 6, [], []⟩ run_zig 7 (by norm_num) (by norm_num)

/-- C5: on every successful run and every index `i ≥ 5` in range, Rule 5
fires at `i` exactly when the six raw values `x[i-5..i]` are strictly
increasing at all five consecutive steps or strictly decreasing at all
five consecutive steps; and on `[1, 2, 3, 4, 5, 6]` it fires at index 5,
flagging the span `[0, 5]`. -/
theorem C5_rule5 :
    (∀ (data : List ℝ) (a : Analysis), controlSensitizingGraph data = .ok a →
      ∀ i : ℕ, 5 ≤ i → i < a.n →
        (((⟨5, i - 5, i⟩ : Msg) ∈ a.messages) ↔
          (∀ j, i - 5 ≤ j → j < i → xAt data j < xAt data (j + 1)) ∨
          (∀ j, i - 5 ≤ j → j < i → xAt data (j + 1) < xAt data j))) ∧
    (∃ a : Analysis, controlSensitizingGraph [1, 2, 3, 4, 5, 6] = .ok a ∧
      (⟨5, 0, 5⟩ : Msg) ∈ a.messages ∧ ∀ j ≤ 5, j ∈ a.problem_points) := by
  constructor
  · intro data a h i h5 hin
    obtain ⟨hn, -, -, hmsgs, -, -, -⟩ := run_ok_fields h
    rw [hn] at hin
    have hmem : ((⟨5, i - 5, i⟩ : Msg) ∈ a.messages) ↔ rule5Hit data i = true := by
      rw [hmsgs, msg_mem_run_iff]
      constructor
      · rintro ⟨-, hmm⟩
        exact (rule5_msgsAt_iff.1 hmm).2
      · intro hr
        exact ⟨hin, rule5_msgsAt_iff.2 ⟨h5, hr⟩⟩
    rw [hmem, rule5Hit_iff data i h5 hin]
    exact Iff.rfl
  · have hmean : listMean [1, 2, 3, 4, 5, 6] = 7 / 2 := by
      norm_num [listMean]
    have hvar : sampleVariance [1, 2, 3, 4, 5, 6] = 7 / 2 := by
      rw [sampleVariance, hmean]
      norm_num
    have hstdne : sampleStd [1, 2, 3, 4, 5, 6] ≠ 0 := by
      rw [sampleStd, hvar]
      exact Real.sqrt_ne_zero'.2 (by norm_num)
    have hr5 : rule5Hit ([1, 2, 3, 4, 5, 6] : List ℝ) 5 = true := by
      rw [show ([1, 2, 3, 4, 5, 6] : List ℝ)
          = ([1, 2, 3, 4, 5, 6] : List ℚ).map (fun x : ℚ => (x : ℝ)) by norm_num,
        rule5Hit_cast]
      decide
    have hmmsg : (⟨5, 0, 5⟩ : Msg) ∈ runMessages ([1, 2, 3, 4, 5, 6] : List ℝ)
        (zScoresOf (listMean [1, 2, 3, 4, 5, 6]) (sampleStd [1, 2, 3, 4, 5, 6])
          [1, 2, 3, 4, 5, 6]) :=
      mem_runMessages.2 ⟨5, by norm_num, rule5_msgsAt_iff.2 ⟨by norm_num, hr5⟩⟩
    refine ⟨_, run_ok_iff.2 ⟨by norm_num, hstdne, rfl⟩, hmmsg, ?_⟩
    intro j hj
    refine (Finset.mem_sort (α := ℕ) (· ≤ ·)).2 ?_
    exact mem_spanUnion.2 ⟨⟨5, 0, 5⟩, hmmsg, Finset.mem_Icc.2 ⟨Nat.zero_le j, hj⟩⟩

theorem C5_witness :
    ((⟨5, 5 - 5, 5⟩ : Msg) ∈ (Analysis.mk 6 0 6 [0, 1, 2, 3, 4, 5] [⟨5, 0, 5⟩]).messages) ↔
      (∀ j, 5 - 5 ≤ j → j < 5 → xAt dataMono j < xAt dataMono (j + 1)) ∨
      (∀ j, 5 - 5 ≤ j → j < 5 → xAt dataMono (j + 1) < xAt dataMono j) :=
  C5_rule5.1 dataMono ⟨6, 0, 6, [0, 1, 2, 3, 4, 5], [⟨5, 0, 5⟩]⟩ run_mono 5
    (by norm_num) (by norm_num)

/-- C6: on every successful run and every index `i ≥ 13` in range, Rule 7
fires at `i` exactly when the 13 consecutive raw differences over
`x[i-13..i]` are all nonzero and every adjacent pair of differences has
opposite signs; and on `[5, 4, 6, 3, 7, 2, 8, 1, 9, 0, 10, -1, 11, -2]` it
fires at index 13, flagging the span `[0, 13]`. -/
theorem C6_rule7 :
    (∀ (data : List ℝ) (a : Analysis), controlSensitizingGraph data = .ok a →
      ∀ i : ℕ, 13 ≤ i → i < a.n →
        (((⟨7, i - 13, i⟩ : Msg) ∈ a.messages) ↔
          (∀ k, i - 13 ≤ k → k < i → dAt data k ≠ 0) ∧
          (∀ k, i - 13 ≤ k → k + 1 < i →
            ((0 < dAt data k ∧ dAt data (k + 1) < 0) ∨
             (dAt data k < 0 ∧ 0 < dAt data (k + 1)))))) ∧
    (∃ a : Analysis,
      controlSensitizingGraph [5, 4, 6, 3, 7, 2, 8, 1, 9, 0, 10, -1, 11, -2] = .ok a ∧
      (⟨7, 0, 13⟩ : Msg) ∈ a.messages ∧ ∀ j ≤ 13, j ∈ a.problem_points) := by
  constructor
  · intro data a h i h13 hin
    obtain ⟨hn, -, -, hmsgs, -, -, -⟩ := run_ok_fields h
    rw [hn] at hin
    have hmem : ((⟨7, i - 13, i⟩ : Msg) ∈ a.messages) ↔ rule7Hit data i = true := by
      rw [hmsgs, msg_mem_run_iff]
      constructor
      · rintro ⟨-, hmm⟩
        exact (rule7_msgsAt_iff.1 hmm).2
      · intro hr
        exact ⟨hin, rule7_msgsAt_iff.2 ⟨h13, hr⟩⟩
    rw [hmem, rule7Hit_iff data i h13 hin]
    refine and_congr Iff.rfl ?_
    refine forall_congr' fun k => ?_
    refine imp_congr_right fun h1 => ?_
    refine imp_congr_right fun h2 => ?_
    exact mul_neg_iff
  · have hmean : listMean [5, 4, 6, 3, 7, 2, 8, 1, 9, 0, 10, -1, 11, -2] = 9 / 2 := by
      norm_num [listMean]
    have hvar : sampleVariance [5, 4, 6, 3, 7, 2, 8, 1, 9, 0, 10, -1, 11, -2] = 35 / 2 := by
      rw [sampleVariance, hmean]
      norm_num
    have hstdne : sampleStd [5, 4, 6, 3, 7, 2, 8, 1, 9, 0, 10, -1, 11, -2] ≠ 0 := by
      rw [sampleStd, hvar]
      exact Real.sqrt_ne_zero'.2 (by norm_num)
    have hr7 : rule7Hit ([5, 4, 6, 3, 7, 2, 8, 1, 9, 0, 10, -1, 11, -2] : List ℝ) 13 = true := by
      rw [show ([5, 4, 6, 3, 7, 2, 8, 1, 9, 0, 10, -1, 11, -2] : List ℝ)
          = (([5, 4, 6, 3, 7, 2, 8, 1, 9, 0, 10, -1, 11, -2] : List ℤ).map
              (fun x : ℤ => (x : ℚ))).map (fun x : ℚ => (x : ℝ)) by norm_num,
        rule7Hit_cast, rule7Hit_intCast]
      decide
    have hmmsg : (⟨7, 0, 13⟩ : Msg)
        ∈ runMessages ([5, 4, 6, 3, 7, 2, 8, 1, 9, 0, 10, -1, 11, -2] : List ℝ)
          (zScoresOf (listMean [5, 4, 6, 3, 7, 2, 8, 1, 9, 0, 10, -1, 11, -2])
            (sampleStd [5, 4, 6, 3, 7, 2, 8, 1, 9, 0, 10, -1, 11, -2])
            [5, 4, 6, 3, 7, 2, 8, 1, 9, 0, 10, -1, 11, -2]) :=
      mem_runMessages.2 ⟨13, by norm_num, rule7_msgsAt_iff.2 ⟨by norm_num, hr7⟩⟩
    refine ⟨_, run_ok_iff.2 ⟨by norm_num, hstdne, rfl⟩, hmmsg, ?_⟩
    intro j hj
    refine (Finset.mem_sort (α := ℕ) (· ≤ ·)).2 ?_
    exact mem_spanUnion.2 ⟨⟨7, 0, 13⟩, hmmsg, Finset.mem_Icc.2 ⟨Nat.zero_le j, hj⟩⟩

theorem C6_witness :
    ((⟨7, 13 - 13, 13⟩ : Msg)
        ∈ (Analysis.mk 14 0 8 [0, 1, 2, 3, 4, 5, 6, 7, 8, 9, 10, 11, 12, 13]
            [⟨7, 0, 13⟩]).messages) ↔
      (∀ k, 13 - 13 ≤ k → k < 13 → dAt dataAlt k ≠ 0) ∧
      (∀ k, 13 - 13 ≤ k → k + 1 < 13 →
        ((0 < dAt dataAlt k ∧ dAt dataAlt (k + 1) < 0) ∨
         (dAt dataAlt k < 0 ∧ 0 < dAt dataAlt (k + 1)))) :=
  C6_rule7.1 dataAlt
    ⟨14, 0, 8, [0, 1, 2, 3, 4, 5, 6, 7, 8, 9, 10, 11, 12, 13], [⟨7, 0, 13⟩]⟩ run_alt 13
    (by norm_num) (by norm_num)

/-- C7 counterexample: on `[0, 0, 0, 3]` the value at index 3 sits exactly
3/2 sample standard deviations from the mean, not 3, and Rule 1 emits no
message at index 3 (the run succeeds with no messages at all), refuting the
claim as stated. -/
theorem C7_counterexample :
    ∃ a : Analysis, controlSensitizingGraph data0003 = .ok a ∧ a.std = 3 / 2 ∧
      xAt data0003 3 - a.mean ≠ 3 * a.std ∧
      (⟨1, 3, 3⟩ : Msg) ∉ a.messages ∧ a.messages = [] := by
  refine ⟨⟨4, 3 / 4, 3 / 2, [], []⟩, run_0003, rfl, ?_, by simp, rfl⟩
  have h3 : xAt data0003 3 = (3 : ℝ) := rfl
  rw [h3]
  norm_num

/-- C7 amended: on `[0, 0, 0, 3]` the value at index 3 is exactly 3/2
sample standard deviations from the mean (`z[3] = 3/2`), so Rule 1 — which
fires exactly when `|z| ≥ 3` — does not fire at index 3 nor at any earlier
index; the run succeeds with no messages. -/
theorem C7_amended :
    ∃ a : Analysis, controlSensitizingGraph data0003 = .ok a ∧ a.std = 3 / 2 ∧
      xAt data0003 3 - a.mean = (3 / 2) * a.std ∧ zAt data0003 3 = 3 / 2 ∧
      a.messages = [] := by
  refine ⟨⟨4, 3 / 4, 3 / 2, [], []⟩, run_0003, rfl, ?_, ?_, rfl⟩
  · have h3 : xAt data0003 3 = (3 : ℝ) := rfl
    rw [h3]
    norm_num
  · rw [zAt, zs_0003, getD_map_cast]
    rw [show ([Rat.divInt (-1) 2, Rat.divInt (-1) 2, Rat.divInt (-1) 2, Rat.divInt 3 2] :
        List ℚ).getD 3 0 = Rat.divInt 3 2 from rfl]
    rw [Rat.divInt_eq_div]
    push_cast
    norm_num

end Claims

end ControlChart
